import Mathlib

/-!
Verification of the UnicodeConvStd library (UnicodeConvStd.hpp): UTF-16/UTF-8
conversion functions built on the Win32 transcoding primitives.

The library's two conversion functions are embedded as Lean functions
parametrized over the transcoding primitive they invoke (the primitive —
WideCharToMultiByte / MultiByteToWideChar — is an external collaborator of the
repository, not part of its code).  A concrete model of the primitive's
strict-mode behaviour, written from the spec's collaborator contract and the
documented Win32 semantics, instantiates the parametrized functions for the
claims that depend on the primitive's actual transcoding behaviour.

Machine integers are modelled as Nat: `size_t` lengths are plain naturals,
`int` is a natural bounded by `INT_MAX` (the bound checked by
`detail.SafeIntFromSizet`), `DWORD` error codes are opaque naturals.
Exceptions are modelled with `Except`.
-/

namespace UnicodeConvStd

/-- Maximum of the 32-bit signed `int` type used by the target compiler
(`std::numeric_limits<int>::max()` in `detail::SafeIntFromSizet`). -/
def INT_MAX : Nat := 2147483647

/-- `UnicodeConversionException::ConversionType`: the direction of the failed
conversion. -/
inductive ConversionType where
  | ConversionFromUtf16ToUtf8
  | ConversionFromUtf8ToUtf16
deriving DecidableEq

/-- `UnicodeConversionException`: data carried by the exception thrown on
conversion failure.  `m_errorCode` and `m_conversionType` are the private
fields; `message` is the string handed to the `std::runtime_error` base class
by both constructors (which differ only in taking `const char*` vs
`const std::string&`), reported back by `what()`.  A Lean structure is
immutable once constructed, matching the C++ class, which has no mutators. -/
structure UnicodeConversionException where
  m_errorCode : Nat
  m_conversionType : ConversionType
  message : String
deriving DecidableEq

/-- `UnicodeConversionException::GetErrorCode`: error code returned by the
Windows APIs, captured via `GetLastError()` at the failure site. -/
def UnicodeConversionException.GetErrorCode (e : UnicodeConversionException) : Nat :=
  e.m_errorCode

/-- `UnicodeConversionException::GetConversionType`. -/
def UnicodeConversionException.GetConversionType (e : UnicodeConversionException) :
    ConversionType :=
  e.m_conversionType

/-- `what()` on the `std::runtime_error` base: reports the message passed at
construction. -/
def UnicodeConversionException.what (e : UnicodeConversionException) : String :=
  e.message

/-- The two kinds of exception a conversion can throw: `std::overflow_error`
(from `detail::SafeIntFromSizet`, carrying only a message) and
`UnicodeConversionException`.  Distinct constructors model distinct C++
exception types that a caller can catch separately. -/
inductive ConvError where
  | overflowError (message : String)
  | conversionError (e : UnicodeConversionException)
deriving DecidableEq

/-- Message of the `std::overflow_error` thrown by `detail::SafeIntFromSizet`. -/
def overflowMessage : String :=
  "Input size_t value is too large: size_t-length doesn\x27t fit into an int."

namespace detail

/-- `detail::SafeIntFromSizet`: safely convert a `size_t` value to an `int`;
throws `std::overflow_error` if the value doesn't fit.  The successful return
`static_cast<int>(s)` is value-preserving because `s` was checked against
`INT_MAX`. -/
def SafeIntFromSizet (s : Nat) : Except String Nat :=
  if s > INT_MAX then
    .error overflowMessage
  else
    .ok s

end detail

/-- Observable outcome of one invocation of a transcoding primitive:
the return value (`0` signals failure), the code units written into the
destination buffer, and the value `GetLastError()` would report after the
call. -/
structure PrimCall where
  ret : Nat
  written : List Nat
  lastError : Nat

/-- A transcoding primitive, as the conversion functions see it: given the
source code units and the destination buffer size (`0` = measure only),
produce the outcome of the call.  All remaining arguments of the Win32
functions (`CP_UTF8` and the strict-validation flags) are fixed constants in
the source, so they are part of the primitive being passed, not parameters. -/
def Prim := List Nat → Nat → PrimCall

/-- Message of the exception thrown when the measure pass of `Utf8FromUtf16`
fails. -/
def msgUtf8LengthQueryFailed : String :=
  "Can\x27t get result UTF-8 string length (WideCharToMultiByte failed)."

/-- Message of the exception thrown when the fill pass of `Utf8FromUtf16`
fails. -/
def msgUtf8ConversionFailed : String :=
  "Can\x27t convert from UTF-16 to UTF-8 string (WideCharToMultiByte failed)."

/-- Message of the exception thrown when the measure pass of `Utf16FromUtf8`
fails. -/
def msgUtf16LengthQueryFailed : String :=
  "Can\x27t get result UTF-16 string length (MultiByteToWideChar failed)."

/-- Message of the exception thrown when the fill pass of `Utf16FromUtf8`
fails. -/
def msgUtf16ConversionFailed : String :=
  "Can\x27t convert from UTF-8 to UTF-16 string (MultiByteToWideChar failed)."

/-- `Utf8FromUtf16`, parametrized over the transcoding primitive `prim`
(`WideCharToMultiByte` with `CP_UTF8` and `WC_ERR_INVALID_CHARS` in the
source).  Mirrors the source statement by statement: empty-input fast path;
length cast; measure pass (zero destination size) with zero-return check;
buffer allocation (`std::string utf8(utf8Length, '\0')`); fill pass with
zero-return check; return of the buffer.  The returned string is the
allocated `utf8Length`-char buffer with the primitive's output written at its
front — `(f.written ++ zeros).take utf8Length`. -/
def Utf8FromUtf16Gen (prim : Prim) (utf16 : List Nat) : Except ConvError (List Nat) :=
  if utf16 = [] then
    .ok []
  else
    match detail.SafeIntFromSizet utf16.length with
    | .error msg => .error (.overflowError msg)
    | .ok utf16Length =>
      let m := prim (utf16.take utf16Length) 0
      if m.ret = 0 then
        .error (.conversionError
          ⟨m.lastError, .ConversionFromUtf16ToUtf8, msgUtf8LengthQueryFailed⟩)
      else
        let utf8Length := m.ret
        let f := prim (utf16.take utf16Length) utf8Length
        if f.ret = 0 then
          .error (.conversionError
            ⟨f.lastError, .ConversionFromUtf16ToUtf8, msgUtf8ConversionFailed⟩)
        else
          .ok ((f.written ++ List.replicate utf8Length 0).take utf8Length)

/-- `Utf16FromUtf8`, parametrized over the transcoding primitive `prim`
(`MultiByteToWideChar` with `CP_UTF8` and `MB_ERR_INVALID_CHARS` in the
source).  Symmetric to `Utf8FromUtf16Gen`. -/
def Utf16FromUtf8Gen (prim : Prim) (utf8 : List Nat) : Except ConvError (List Nat) :=
  if utf8 = [] then
    .ok []
  else
    match detail.SafeIntFromSizet utf8.length with
    | .error msg => .error (.overflowError msg)
    | .ok utf8Length =>
      let m := prim (utf8.take utf8Length) 0
      if m.ret = 0 then
        .error (.conversionError
          ⟨m.lastError, .ConversionFromUtf8ToUtf16, msgUtf16LengthQueryFailed⟩)
      else
        let utf16Length := m.ret
        let f := prim (utf8.take utf8Length) utf16Length
        if f.ret = 0 then
          .error (.conversionError
            ⟨f.lastError, .ConversionFromUtf8ToUtf16, msgUtf16ConversionFailed⟩)
        else
          .ok ((f.written ++ List.replicate utf16Length 0).take utf16Length)

/-- Modelled from the spec: decoding of a UTF-16 code-unit sequence into
Unicode code points under strict validation ("reject any UTF-16 input
containing unpaired/invalid surrogate code units"), as performed by the
external transcoding primitive.  A high surrogate (0xD800..0xDBFF) must be
followed by a low surrogate (0xDC00..0xDFFF), the pair jointly encoding a
supplementary code point; a lone high or low surrogate makes the sequence
invalid (`none`). -/
def utf16Decode : List Nat → Option (List Nat)
  | [] => some []
  | u :: rest =>
    if 0xD800 ≤ u ∧ u ≤ 0xDBFF then
      match rest with
      | [] => none
      | v :: rest2 =>
        if 0xDC00 ≤ v ∧ v ≤ 0xDFFF then
          match utf16Decode rest2 with
          | some cps => some ((0x10000 + (u - 0xD800) * 1024 + (v - 0xDC00)) :: cps)
          | none => none
        else none
    else if 0xDC00 ≤ u ∧ u ≤ 0xDFFF then none
    else
      match utf16Decode rest with
      | some cps => some (u :: cps)
      | none => none

/-- The claim-side predicate "the sequence contains an unpaired surrogate
code unit": a high surrogate not immediately followed by a low surrogate, or
a low surrogate not immediately preceded by a high surrogate. -/
def hasUnpairedSurrogate : List Nat → Bool
  | [] => false
  | u :: rest =>
    if 0xD800 ≤ u ∧ u ≤ 0xDBFF then
      match rest with
      | [] => true
      | v :: rest2 =>
        if 0xDC00 ≤ v ∧ v ≤ 0xDFFF then hasUnpairedSurrogate rest2
        else true
    else if 0xDC00 ≤ u ∧ u ≤ 0xDFFF then true
    else hasUnpairedSurrogate rest

/-- Modelled from the spec: UTF-8 encoding of one Unicode code point
(1 to 4 bytes). -/
def utf8EncodeChar (c : Nat) : List Nat :=
  if c < 0x80 then
    [c]
  else if c < 0x800 then
    [0xC0 + c / 64, 0x80 + c % 64]
  else if c < 0x10000 then
    [0xE0 + c / 4096, 0x80 + c / 64 % 64, 0x80 + c % 64]
  else
    [0xF0 + c / 262144, 0x80 + c / 4096 % 64, 0x80 + c / 64 % 64, 0x80 + c % 64]

/-- Modelled from the spec: UTF-8 encoding of a code-point sequence. -/
def utf8Encode : List Nat → List Nat
  | [] => []
  | c :: cs => utf8EncodeChar c ++ utf8Encode cs

/-- Modelled from the spec: strict UTF-8 decoding ("reject any byte sequence
that is not valid UTF-8, including overlong encodings and invalid
continuation bytes"), as performed by the external transcoding primitive.
Each multi-byte form requires its continuation bytes to lie in 0x80..0xBF and
the decoded code point to be in the canonical range of that form (no overlong
encodings), to not be a surrogate, and to not exceed 0x10FFFF. -/
def utf8Decode : List Nat → Option (List Nat)
  | [] => some []
  | b :: rest =>
    if b < 0x80 then
      (utf8Decode rest).map (fun cps => b :: cps)
    else
      match rest with
      | [] => none
      | b1 :: rest1 =>
        if 0xC0 ≤ b ∧ b < 0xE0 then
          if (0x80 ≤ b1 ∧ b1 < 0xC0) ∧ 0x80 ≤ (b - 0xC0) * 64 + (b1 - 0x80) then
            (utf8Decode rest1).map (fun cps => ((b - 0xC0) * 64 + (b1 - 0x80)) :: cps)
          else none
        else
          match rest1 with
          | [] => none
          | b2 :: rest2 =>
            if 0xE0 ≤ b ∧ b < 0xF0 then
              if (0x80 ≤ b1 ∧ b1 < 0xC0) ∧ (0x80 ≤ b2 ∧ b2 < 0xC0) ∧
                  0x800 ≤ (b - 0xE0) * 4096 + (b1 - 0x80) * 64 + (b2 - 0x80) ∧
                  ¬(0xD800 ≤ (b - 0xE0) * 4096 + (b1 - 0x80) * 64 + (b2 - 0x80) ∧
                    (b - 0xE0) * 4096 + (b1 - 0x80) * 64 + (b2 - 0x80) ≤ 0xDFFF) then
                (utf8Decode rest2).map
                  (fun cps => ((b - 0xE0) * 4096 + (b1 - 0x80) * 64 + (b2 - 0x80)) :: cps)
              else none
            else
              match rest2 with
              | [] => none
              | b3 :: rest3 =>
                if 0xF0 ≤ b ∧ b < 0xF8 then
                  if (0x80 ≤ b1 ∧ b1 < 0xC0) ∧ (0x80 ≤ b2 ∧ b2 < 0xC0) ∧
                      (0x80 ≤ b3 ∧ b3 < 0xC0) ∧
                      0x10000 ≤ (b - 0xF0) * 262144 + (b1 - 0x80) * 4096 +
                        (b2 - 0x80) * 64 + (b3 - 0x80) ∧
                      (b - 0xF0) * 262144 + (b1 - 0x80) * 4096 +
                        (b2 - 0x80) * 64 + (b3 - 0x80) ≤ 0x10FFFF then
                    (utf8Decode rest3).map
                      (fun cps =>
                        ((b - 0xF0) * 262144 + (b1 - 0x80) * 4096 +
                          (b2 - 0x80) * 64 + (b3 - 0x80)) :: cps)
                  else none
                else none

/-- Modelled from the spec: UTF-16 encoding of one Unicode code point —
the code point itself if it is in the basic plane, a surrogate pair
otherwise. -/
def utf16EncodeChar (c : Nat) : List Nat :=
  if c < 0x10000 then
    [c]
  else
    [0xD800 + (c - 0x10000) / 1024, 0xDC00 + (c - 0x10000) % 1024]

/-- Modelled from the spec: UTF-16 encoding of a code-point sequence. -/
def utf16Encode : List Nat → List Nat
  | [] => []
  | c :: cs => utf16EncodeChar c ++ utf16Encode cs

/-- Win32 error code ERROR_NO_UNICODE_TRANSLATION, reported by the
primitives when strict validation rejects the input. -/
def ERROR_NO_UNICODE_TRANSLATION : Nat := 1113

/-- Win32 error code ERROR_INSUFFICIENT_BUFFER. -/
def ERROR_INSUFFICIENT_BUFFER : Nat := 122

/-- Modelled from the spec: the external transcoding primitive
`WideCharToMultiByte(CP_UTF8, WC_ERR_INVALID_CHARS, src, srcLen, dst,
cbMultiByte, ...)`.  Per the spec's collaborator contract: with a
zero-capacity destination it returns the number of output units required;
with a destination it fills it and returns the number of units written;
it returns 0 on any failure and makes a last-error code retrievable; the
strict-validation flag makes it reject malformed input rather than
substitute replacement characters. -/
def wideCharToMultiByte (src : List Nat) (cbMultiByte : Nat) : PrimCall :=
  match utf16Decode src with
  | none => ⟨0, [], ERROR_NO_UNICODE_TRANSLATION⟩
  | some cps =>
    let bytes := utf8Encode cps
    if cbMultiByte = 0 then ⟨bytes.length, [], 0⟩
    else if bytes.length ≤ cbMultiByte then ⟨bytes.length, bytes, 0⟩
    else ⟨0, [], ERROR_INSUFFICIENT_BUFFER⟩

/-- Modelled from the spec: the external transcoding primitive
`MultiByteToWideChar(CP_UTF8, MB_ERR_INVALID_CHARS, src, srcLen, dst,
cchWideChar)`, symmetric to `wideCharToMultiByte`. -/
def multiByteToWideChar (src : List Nat) (cchWideChar : Nat) : PrimCall :=
  match utf8Decode src with
  | none => ⟨0, [], ERROR_NO_UNICODE_TRANSLATION⟩
  | some cps =>
    let units := utf16Encode cps
    if cchWideChar = 0 then ⟨units.length, [], 0⟩
    else if units.length ≤ cchWideChar then ⟨units.length, units, 0⟩
    else ⟨0, [], ERROR_INSUFFICIENT_BUFFER⟩

/-- `Utf8FromUtf16` as shipped: the parametrized conversion applied to the
modelled Win32 primitive. -/
def Utf8FromUtf16 (utf16 : List Nat) : Except ConvError (List Nat) :=
  Utf8FromUtf16Gen wideCharToMultiByte utf16

/-- `Utf16FromUtf8` as shipped: the parametrized conversion applied to the
modelled Win32 primitive. -/
def Utf16FromUtf8 (utf8 : List Nat) : Except ConvError (List Nat) :=
  Utf16FromUtf8Gen multiByteToWideChar utf8

/-- Observable steps of a conversion call, in the order they occur:
the `SafeIntFromSizet` length cast, the measure-pass primitive invocation,
the allocation of the destination buffer, and the fill-pass primitive
invocation. -/
inductive Event where
  | lengthCast
  | primMeasure
  | alloc
  | primFill
deriving DecidableEq

/-- `Utf8FromUtf16Gen` instrumented with the trace of its steps: the same
control flow, additionally returning the list of events in the order the
source performs them. -/
def Utf8FromUtf16T (prim : Prim) (utf16 : List Nat) :
    Except ConvError (List Nat) × List Event :=
  if utf16 = [] then
    (.ok [], [])
  else
    match detail.SafeIntFromSizet utf16.length with
    | .error msg => (.error (.overflowError msg), [.lengthCast])
    | .ok utf16Length =>
      let m := prim (utf16.take utf16Length) 0
      if m.ret = 0 then
        (.error (.conversionError
          ⟨m.lastError, .ConversionFromUtf16ToUtf8, msgUtf8LengthQueryFailed⟩),
         [.lengthCast, .primMeasure])
      else
        let utf8Length := m.ret
        let f := prim (utf16.take utf16Length) utf8Length
        if f.ret = 0 then
          (.error (.conversionError
            ⟨f.lastError, .ConversionFromUtf16ToUtf8, msgUtf8ConversionFailed⟩),
           [.lengthCast, .primMeasure, .alloc, .primFill])
        else
          (.ok ((f.written ++ List.replicate utf8Length 0).take utf8Length),
           [.lengthCast, .primMeasure, .alloc, .primFill])

/-- `Utf16FromUtf8Gen` instrumented with the trace of its steps. -/
def Utf16FromUtf8T (prim : Prim) (utf8 : List Nat) :
    Except ConvError (List Nat) × List Event :=
  if utf8 = [] then
    (.ok [], [])
  else
    match detail.SafeIntFromSizet utf8.length with
    | .error msg => (.error (.overflowError msg), [.lengthCast])
    | .ok utf8Length =>
      let m := prim (utf8.take utf8Length) 0
      if m.ret = 0 then
        (.error (.conversionError
          ⟨m.lastError, .ConversionFromUtf8ToUtf16, msgUtf16LengthQueryFailed⟩),
         [.lengthCast, .primMeasure])
      else
        let utf16Length := m.ret
        let f := prim (utf8.take utf8Length) utf16Length
        if f.ret = 0 then
          (.error (.conversionError
            ⟨f.lastError, .ConversionFromUtf8ToUtf16, msgUtf16ConversionFailed⟩),
           [.lengthCast, .primMeasure, .alloc, .primFill])
        else
          (.ok ((f.written ++ List.replicate utf16Length 0).take utf16Length),
           [.lengthCast, .primMeasure, .alloc, .primFill])

/-- A primitive whose every call fails, returning 0 with last-error 42:
exercises the measure-failure path of the conversions. -/
def primAlwaysFails : Prim := fun _ _ => ⟨0, [], 42⟩

/-- A primitive whose measure pass reports 3 required units but whose fill
pass returns a written count of 2: exercises the code path in which the fill
return value differs from the measured length. -/
def primMismatch : Prim := fun _ dstSize =>
  if dstSize = 0 then ⟨3, [], 0⟩ else ⟨2, [65, 66], 0⟩

/-- A primitive that fails exactly when given a nonzero destination size:
exercises the fill-failure path, with last-error 7. -/
def primFillFails : Prim := fun _ dstSize =>
  if dstSize = 0 then ⟨3, [], 0⟩ else ⟨0, [], 7⟩

/-- A syntactically valid UTF-16 sequence (2^31 ASCII code units) whose
length exceeds `INT_MAX`. -/
def hugeValidUtf16 : List Nat := List.replicate (2 ^ 31) 65

/-- The instrumented conversion computes the same result as the plain one. -/
theorem utf8FromUtf16T_fst (prim : Prim) (utf16 : List Nat) :
    (Utf8FromUtf16T prim utf16).1 = Utf8FromUtf16Gen prim utf16 := by
  simp only [Utf8FromUtf16T, Utf8FromUtf16Gen]
  repeat' split
  all_goals rfl

/-- The instrumented conversion computes the same result as the plain one. -/
theorem utf16FromUtf8T_fst (prim : Prim) (utf8 : List Nat) :
    (Utf16FromUtf8T prim utf8).1 = Utf16FromUtf8Gen prim utf8 := by
  simp only [Utf16FromUtf8T, Utf16FromUtf8Gen]
  repeat' split
  all_goals rfl

/-- `SafeIntFromSizet` succeeds, value unchanged, when the input fits. -/
theorem safeIntFromSizet_ok {s : Nat} (h : s ≤ INT_MAX) :
    detail.SafeIntFromSizet s = .ok s := by
  unfold detail.SafeIntFromSizet
  rw [if_neg (by omega)]

/-- `SafeIntFromSizet` fails with the overflow message when the input does
not fit. -/
theorem safeIntFromSizet_error {s : Nat} (h : INT_MAX < s) :
    detail.SafeIntFromSizet s = .error overflowMessage := by
  unfold detail.SafeIntFromSizet
  rw [if_pos (by omega)]

/-- Overflow path of `Utf8FromUtf16Gen`: a nonempty input whose length
exceeds `INT_MAX` makes the conversion fail with the overflow error,
whatever the primitive does. -/
theorem utf8FromUtf16Gen_overflow (prim : Prim) (s : List Nat) (hs : s ≠ [])
    (h : INT_MAX < s.length) :
    Utf8FromUtf16Gen prim s = .error (.overflowError overflowMessage) := by
  unfold Utf8FromUtf16Gen
  rw [if_neg hs, safeIntFromSizet_error h]

/-- Measure-failure path of `Utf8FromUtf16Gen`. -/
theorem utf8FromUtf16Gen_measureFail (prim : Prim) (s : List Nat) (hs : s ≠ [])
    (hl : s.length ≤ INT_MAX) (hm : (prim s 0).ret = 0) :
    Utf8FromUtf16Gen prim s =
      .error (.conversionError
        ⟨(prim s 0).lastError, .ConversionFromUtf16ToUtf8, msgUtf8LengthQueryFailed⟩) := by
  unfold Utf8FromUtf16Gen
  rw [if_neg hs, safeIntFromSizet_ok hl]
  simp only [List.take_length]
  rw [if_pos hm]

/-- Fill-failure path of `Utf8FromUtf16Gen`. -/
theorem utf8FromUtf16Gen_fillFail (prim : Prim) (s : List Nat) (hs : s ≠ [])
    (hl : s.length ≤ INT_MAX) (hm : (prim s 0).ret ≠ 0)
    (hf : (prim s (prim s 0).ret).ret = 0) :
    Utf8FromUtf16Gen prim s =
      .error (.conversionError
        ⟨(prim s (prim s 0).ret).lastError, .ConversionFromUtf16ToUtf8,
          msgUtf8ConversionFailed⟩) := by
  unfold Utf8FromUtf16Gen
  rw [if_neg hs, safeIntFromSizet_ok hl]
  simp only [List.take_length]
  rw [if_neg hm, if_pos hf]

/-- Success path of `Utf8FromUtf16Gen`: both passes return nonzero, and the
result is the allocated buffer of the measured length, filled at its front
with what the fill pass wrote. -/
theorem utf8FromUtf16Gen_success (prim : Prim) (s : List Nat) (hs : s ≠ [])
    (hl : s.length ≤ INT_MAX) (hm : (prim s 0).ret ≠ 0)
    (hf : (prim s (prim s 0).ret).ret ≠ 0) :
    Utf8FromUtf16Gen prim s =
      .ok (((prim s (prim s 0).ret).written ++
            List.replicate (prim s 0).ret 0).take (prim s 0).ret) := by
  unfold Utf8FromUtf16Gen
  rw [if_neg hs, safeIntFromSizet_ok hl]
  simp only [List.take_length]
  rw [if_neg hm, if_neg hf]

/-- Overflow path of `Utf16FromUtf8Gen`. -/
theorem utf16FromUtf8Gen_overflow (prim : Prim) (s : List Nat) (hs : s ≠ [])
    (h : INT_MAX < s.length) :
    Utf16FromUtf8Gen prim s = .error (.overflowError overflowMessage) := by
  unfold Utf16FromUtf8Gen
  rw [if_neg hs, safeIntFromSizet_error h]

/-- Measure-failure path of `Utf16FromUtf8Gen`. -/
theorem utf16FromUtf8Gen_measureFail (prim : Prim) (s : List Nat) (hs : s ≠ [])
    (hl : s.length ≤ INT_MAX) (hm : (prim s 0).ret = 0) :
    Utf16FromUtf8Gen prim s =
      .error (.conversionError
        ⟨(prim s 0).lastError, .ConversionFromUtf8ToUtf16, msgUtf16LengthQueryFailed⟩) := by
  unfold Utf16FromUtf8Gen
  rw [if_neg hs, safeIntFromSizet_ok hl]
  simp only [List.take_length]
  rw [if_pos hm]

/-- Fill-failure path of `Utf16FromUtf8Gen`. -/
theorem utf16FromUtf8Gen_fillFail (prim : Prim) (s : List Nat) (hs : s ≠ [])
    (hl : s.length ≤ INT_MAX) (hm : (prim s 0).ret ≠ 0)
    (hf : (prim s (prim s 0).ret).ret = 0) :
    Utf16FromUtf8Gen prim s =
      .error (.conversionError
        ⟨(prim s (prim s 0).ret).lastError, .ConversionFromUtf8ToUtf16,
          msgUtf16ConversionFailed⟩) := by
  unfold Utf16FromUtf8Gen
  rw [if_neg hs, safeIntFromSizet_ok hl]
  simp only [List.take_length]
  rw [if_neg hm, if_pos hf]

/-- Success path of `Utf16FromUtf8Gen`. -/
theorem utf16FromUtf8Gen_success (prim : Prim) (s : List Nat) (hs : s ≠ [])
    (hl : s.length ≤ INT_MAX) (hm : (prim s 0).ret ≠ 0)
    (hf : (prim s (prim s 0).ret).ret ≠ 0) :
    Utf16FromUtf8Gen prim s =
      .ok (((prim s (prim s 0).ret).written ++
            List.replicate (prim s 0).ret 0).take (prim s 0).ret) := by
  unfold Utf16FromUtf8Gen
  rw [if_neg hs, safeIntFromSizet_ok hl]
  simp only [List.take_length]
  rw [if_neg hm, if_neg hf]

/-- Strict UTF-16 decoding fails exactly on sequences containing an unpaired
surrogate. -/
theorem utf16Decode_none_iff (s : List Nat) :
    utf16Decode s = none ↔ hasUnpairedSurrogate s = true := by
  induction s using utf16Decode.induct with
  | case1 => simp [utf16Decode, hasUnpairedSurrogate]
  | case2 u hu => simp [utf16Decode, hasUnpairedSurrogate, hu]
  | case3 u hu v rest2 hv cps hrec ih =>
    simp [hrec] at ih
    simp [utf16Decode, hasUnpairedSurrogate, hu, hv, hrec, ih]
  | case4 u hu v rest2 hv hrec ih =>
    simp [hrec] at ih
    simp [utf16Decode, hasUnpairedSurrogate, hu, hv, hrec, ih]
  | case5 u hu v rest2 hv =>
    simp [utf16Decode, hasUnpairedSurrogate, hu, hv]
  | case6 u rest hu hu' =>
    constructor
    · intro _
      unfold hasUnpairedSurrogate
      rw [if_neg hu, if_pos hu']
    · intro _
      unfold utf16Decode
      rw [if_neg hu, if_pos hu']
  | case7 u rest hu hu' cps hrec ih =>
    simp [hrec] at ih
    have hL : utf16Decode (u :: rest) = some (u :: cps) := by
      unfold utf16Decode
      rw [if_neg hu, if_neg hu', hrec]
    have hR : hasUnpairedSurrogate (u :: rest) = hasUnpairedSurrogate rest := by
      rw [hasUnpairedSurrogate.eq_def]
      simp only
      rw [if_neg hu, if_neg hu']
    rw [hL, hR]
    simp [ih]
  | case8 u rest hu hu' hrec ih =>
    simp [hrec] at ih
    have hL : utf16Decode (u :: rest) = none := by
      unfold utf16Decode
      rw [if_neg hu, if_neg hu', hrec]
    have hR : hasUnpairedSurrogate (u :: rest) = hasUnpairedSurrogate rest := by
      rw [hasUnpairedSurrogate.eq_def]
      simp only
      rw [if_neg hu, if_neg hu']
    rw [hL, hR]
    simp [ih]

/-- A nonempty UTF-16 sequence decodes to a nonempty code-point sequence. -/
theorem utf16Decode_cons_ne_nil (u : Nat) (rest cps : List Nat)
    (h : utf16Decode (u :: rest) = some cps) : cps ≠ [] := by
  unfold utf16Decode at h
  repeat' split at h
  all_goals
    intro hc
  all_goals
    subst hc
  all_goals
    simp at h

/-- One code point encodes to at least one UTF-8 byte. -/
theorem utf8EncodeChar_ne_nil (c : Nat) : utf8EncodeChar c ≠ [] := by
  unfold utf8EncodeChar
  repeat' split
  all_goals simp

/-- A basic-plane code point encodes to at most three UTF-8 bytes. -/
theorem utf8EncodeChar_length_le_three (c : Nat) (h : c < 0x10000) :
    (utf8EncodeChar c).length ≤ 3 := by
  unfold utf8EncodeChar
  repeat' split
  all_goals simp_all

/-- Any code point encodes to at most four UTF-8 bytes. -/
theorem utf8EncodeChar_length_le_four (c : Nat) :
    (utf8EncodeChar c).length ≤ 4 := by
  unfold utf8EncodeChar
  repeat' split
  all_goals simp

/-- A nonempty code-point sequence encodes to a nonempty UTF-8 sequence. -/
theorem utf8Encode_ne_nil (cps : List Nat) (h : cps ≠ []) : utf8Encode cps ≠ [] := by
  cases cps with
  | nil => exact absurd rfl h
  | cons c cs =>
    simp only [utf8Encode]
    intro he
    exact utf8EncodeChar_ne_nil c (List.append_eq_nil.mp he).1

/-- Evaluation of `utf16Decode` on a valid surrogate pair. -/
theorem utf16Decode_cons_pair (u v : Nat) (rest2 cps : List Nat)
    (hu : 0xD800 ≤ u ∧ u ≤ 0xDBFF) (hv : 0xDC00 ≤ v ∧ v ≤ 0xDFFF)
    (hrec : utf16Decode rest2 = some cps) :
    utf16Decode (u :: v :: rest2) =
      some ((0x10000 + (u - 0xD800) * 1024 + (v - 0xDC00)) :: cps) := by
  unfold utf16Decode
  simp only
  rw [if_pos hu, if_pos hv, hrec]

/-- Evaluation of `utf16Decode` on a non-surrogate code unit. -/
theorem utf16Decode_cons_bmp (u : Nat) (rest cps : List Nat)
    (hu : ¬(0xD800 ≤ u ∧ u ≤ 0xDBFF)) (hu' : ¬(0xDC00 ≤ u ∧ u ≤ 0xDFFF))
    (hrec : utf16Decode rest = some cps) :
    utf16Decode (u :: rest) = some (u :: cps) := by
  unfold utf16Decode
  rw [if_neg hu, if_neg hu', hrec]

/-- Code points decoded from a valid UTF-16 sequence of 16-bit units are
Unicode scalar values: below 0x110000 and not surrogates. -/
theorem utf16Decode_valid (s : List Nat) :
    ∀ cps, utf16Decode s = some cps → (∀ u ∈ s, u < 65536) →
      ∀ c ∈ cps, c < 0x110000 ∧ ¬(0xD800 ≤ c ∧ c ≤ 0xDFFF) := by
  induction s using utf16Decode.induct with
  | case1 =>
    intro cps hdec h16 c hc
    simp [utf16Decode] at hdec
    subst hdec
    simp at hc
  | case2 u hu =>
    intro cps hdec h16 c hc
    simp [utf16Decode, hu] at hdec
  | case3 u hu v rest2 hv cps hrec ih =>
    intro cps0 hdec h16 c hc
    rw [utf16Decode_cons_pair u v rest2 cps hu hv hrec] at hdec
    injection hdec with hdec
    subst hdec
    rcases List.mem_cons.mp hc with hc | hc
    · constructor <;> omega
    · exact ih cps hrec (fun x hx => h16 x (by simp [hx])) c hc
  | case4 u hu v rest2 hv hrec ih =>
    intro cps0 hdec h16 c hc
    have hL : utf16Decode (u :: v :: rest2) = none := by
      unfold utf16Decode
      simp only
      rw [if_pos hu, if_pos hv, hrec]
    rw [hL] at hdec
    exact absurd hdec (by simp)
  | case5 u hu v rest2 hv =>
    intro cps0 hdec h16 c hc
    have hL : utf16Decode (u :: v :: rest2) = none := by
      unfold utf16Decode
      simp only
      rw [if_pos hu, if_neg hv]
    rw [hL] at hdec
    exact absurd hdec (by simp)
  | case6 u rest hu hu' =>
    intro cps0 hdec h16 c hc
    have hL : utf16Decode (u :: rest) = none := by
      unfold utf16Decode
      rw [if_neg hu, if_pos hu']
    rw [hL] at hdec
    exact absurd hdec (by simp)
  | case7 u rest hu hu' cps hrec ih =>
    intro cps0 hdec h16 c hc
    rw [utf16Decode_cons_bmp u rest cps hu hu' hrec] at hdec
    injection hdec with hdec
    subst hdec
    rcases List.mem_cons.mp hc with hc | hc
    · have hue : u < 65536 := h16 u (by simp)
      constructor <;> omega
    · exact ih cps hrec (fun x hx => h16 x (by simp [hx])) c hc
  | case8 u rest hu hu' hrec ih =>
    intro cps0 hdec h16 c hc
    have hL : utf16Decode (u :: rest) = none := by
      unfold utf16Decode
      rw [if_neg hu, if_neg hu', hrec]
    rw [hL] at hdec
    exact absurd hdec (by simp)

/-- Re-encoding the code points decoded from a valid UTF-16 sequence of
16-bit units gives back the original sequence. -/
theorem utf16Encode_decode (s : List Nat) :
    ∀ cps, utf16Decode s = some cps → (∀ u ∈ s, u < 65536) →
      utf16Encode cps = s := by
  induction s using utf16Decode.induct with
  | case1 =>
    intro cps hdec h16
    simp [utf16Decode] at hdec
    subst hdec
    rfl
  | case2 u hu =>
    intro cps hdec h16
    simp [utf16Decode, hu] at hdec
  | case3 u hu v rest2 hv cps hrec ih =>
    intro cps0 hdec h16
    rw [utf16Decode_cons_pair u v rest2 cps hu hv hrec] at hdec
    injection hdec with hdec
    subst hdec
    have hcp : utf16EncodeChar (0x10000 + (u - 0xD800) * 1024 + (v - 0xDC00)) = [u, v] := by
      unfold utf16EncodeChar
      rw [if_neg (by omega)]
      have e1 : 0xD800 + (0x10000 + (u - 0xD800) * 1024 + (v - 0xDC00) - 0x10000) / 1024 = u := by
        omega
      have e2 : 0xDC00 + (0x10000 + (u - 0xD800) * 1024 + (v - 0xDC00) - 0x10000) % 1024 = v := by
        omega
      rw [e1, e2]
    simp only [utf16Encode, hcp]
    rw [ih cps hrec (fun x hx => h16 x (by simp [hx]))]
    rfl
  | case4 u hu v rest2 hv hrec ih =>
    intro cps0 hdec h16
    have hL : utf16Decode (u :: v :: rest2) = none := by
      unfold utf16Decode
      simp only
      rw [if_pos hu, if_pos hv, hrec]
    rw [hL] at hdec
    exact absurd hdec (by simp)
  | case5 u hu v rest2 hv =>
    intro cps0 hdec h16
    have hL : utf16Decode (u :: v :: rest2) = none := by
      unfold utf16Decode
      simp only
      rw [if_pos hu, if_neg hv]
    rw [hL] at hdec
    exact absurd hdec (by simp)
  | case6 u rest hu hu' =>
    intro cps0 hdec h16
    have hL : utf16Decode (u :: rest) = none := by
      unfold utf16Decode
      rw [if_neg hu, if_pos hu']
    rw [hL] at hdec
    exact absurd hdec (by simp)
  | case7 u rest hu hu' cps hrec ih =>
    intro cps0 hdec h16
    rw [utf16Decode_cons_bmp u rest cps hu hu' hrec] at hdec
    injection hdec with hdec
    subst hdec
    have hcp : utf16EncodeChar u = [u] := by
      unfold utf16EncodeChar
      rw [if_pos (h16 u (by simp))]
    simp only [utf16Encode, hcp]
    rw [ih cps hrec (fun x hx => h16 x (by simp [hx]))]
    rfl
  | case8 u rest hu hu' hrec ih =>
    intro cps0 hdec h16
    have hL : utf16Decode (u :: rest) = none := by
      unfold utf16Decode
      rw [if_neg hu, if_neg hu', hrec]
    rw [hL] at hdec
    exact absurd hdec (by simp)

/-- The UTF-8 encoding of the code points of a UTF-16 sequence of 16-bit
units takes at most three bytes per UTF-16 code unit. -/
theorem utf8Encode_length_le (s : List Nat) :
    ∀ cps, utf16Decode s = some cps → (∀ u ∈ s, u < 65536) →
      (utf8Encode cps).length ≤ 3 * s.length := by
  induction s using utf16Decode.induct with
  | case1 =>
    intro cps hdec h16
    simp [utf16Decode] at hdec
    subst hdec
    simp [utf8Encode]
  | case2 u hu =>
    intro cps hdec h16
    simp [utf16Decode, hu] at hdec
  | case3 u hu v rest2 hv cps hrec ih =>
    intro cps0 hdec h16
    rw [utf16Decode_cons_pair u v rest2 cps hu hv hrec] at hdec
    injection hdec with hdec
    subst hdec
    have h4 := utf8EncodeChar_length_le_four (0x10000 + (u - 0xD800) * 1024 + (v - 0xDC00))
    have hr := ih cps hrec (fun x hx => h16 x (by simp [hx]))
    simp only [utf8Encode, List.length_append, List.length_cons] at hr ⊢
    omega
  | case4 u hu v rest2 hv hrec ih =>
    intro cps0 hdec h16
    have hL : utf16Decode (u :: v :: rest2) = none := by
      unfold utf16Decode
      simp only
      rw [if_pos hu, if_pos hv, hrec]
    rw [hL] at hdec
    exact absurd hdec (by simp)
  | case5 u hu v rest2 hv =>
    intro cps0 hdec h16
    have hL : utf16Decode (u :: v :: rest2) = none := by
      unfold utf16Decode
      simp only
      rw [if_pos hu, if_neg hv]
    rw [hL] at hdec
    exact absurd hdec (by simp)
  | case6 u rest hu hu' =>
    intro cps0 hdec h16
    have hL : utf16Decode (u :: rest) = none := by
      unfold utf16Decode
      rw [if_neg hu, if_pos hu']
    rw [hL] at hdec
    exact absurd hdec (by simp)
  | case7 u rest hu hu' cps hrec ih =>
    intro cps0 hdec h16
    rw [utf16Decode_cons_bmp u rest cps hu hu' hrec] at hdec
    injection hdec with hdec
    subst hdec
    have h3 := utf8EncodeChar_length_le_three u (h16 u (by simp))
    have hr := ih cps hrec (fun x hx => h16 x (by simp [hx]))
    simp only [utf8Encode, List.length_append, List.length_cons] at hr ⊢
    omega
  | case8 u rest hu hu' hrec ih =>
    intro cps0 hdec h16
    have hL : utf16Decode (u :: rest) = none := by
      unfold utf16Decode
      rw [if_neg hu, if_neg hu', hrec]
    rw [hL] at hdec
    exact absurd hdec (by simp)

/-- C3: for the empty input, `Utf8FromUtf16` returns the empty UTF-8 string
and `Utf16FromUtf8` returns the empty UTF-16 string; the instrumented traces
are empty, so neither the transcoding primitive nor the length cast is ever
performed, and the empty case never fails — whatever the primitive does. -/
theorem emptyInput_identity_no_primitive_call (prim : Prim) :
    Utf8FromUtf16T prim [] = (.ok [], []) ∧
    Utf16FromUtf8T prim [] = (.ok [], []) ∧
    Utf8FromUtf16 [] = .ok [] ∧
    Utf16FromUtf8 [] = .ok [] :=
  ⟨rfl, rfl, rfl, rfl⟩

/-- C4: `detail::SafeIntFromSizet` fails with the overflow error exactly when
the input exceeds `INT_MAX`, and otherwise returns the numerically unchanged
input; the overflow error (`std::overflow_error`) is a constructor of the
error type distinct from `ConversionError`, so a caller can tell a
length-overflow failure from a conversion failure. -/
theorem safeIntFromSizet_spec (s : Nat) :
    (INT_MAX < s → detail.SafeIntFromSizet s = .error overflowMessage) ∧
    (s ≤ INT_MAX → detail.SafeIntFromSizet s = .ok s) ∧
    (∀ (msg : String) (e : UnicodeConversionException),
      ConvError.overflowError msg ≠ ConvError.conversionError e) :=
  ⟨fun h => safeIntFromSizet_error h,
   fun h => safeIntFromSizet_ok h,
   fun _ _ h => ConvError.noConfusion h⟩

/-- Witness for C4: the overflow branch at 2^31 and the success branch at 5. -/
theorem safeIntFromSizet_spec_witness :
    detail.SafeIntFromSizet (2 ^ 31) = .error overflowMessage ∧
    detail.SafeIntFromSizet 5 = .ok 5 :=
  ⟨(safeIntFromSizet_spec (2 ^ 31)).1 (by decide),
   (safeIntFromSizet_spec 5).2.1 (by decide)⟩

/-- C9: a `UnicodeConversionException` is pure data carriage: `GetErrorCode`
returns the error code it was constructed with, `GetConversionType` the
direction it was constructed with, and `what()` the message passed at
construction.  (The Lean structure, like the C++ class, offers no mutation
after construction.) -/
theorem unicodeConversionException_data_carriage
    (errorCode : Nat) (ct : ConversionType) (msg : String) :
    (UnicodeConversionException.mk errorCode ct msg).GetErrorCode = errorCode ∧
    (UnicodeConversionException.mk errorCode ct msg).GetConversionType = ct ∧
    (UnicodeConversionException.mk errorCode ct msg).what = msg :=
  ⟨rfl, rfl, rfl⟩

/-- C5 (amended): whenever the transcoding primitive returns zero, the
conversion raises a `ConversionError` carrying the direction of the failing
operation and the last-error code captured at the failure site; the message
is the source's literal measure-pass message ("Can't get result ... length
(... failed).") for a measure-pass failure and its literal fill-pass message
("Can't convert ... (... failed).") for a fill-pass failure. -/
theorem conversionError_on_primitive_failure :
    (∀ (prim : Prim) (s : List Nat), s ≠ [] → s.length ≤ INT_MAX →
      ((prim s 0).ret = 0 →
        Utf8FromUtf16Gen prim s =
          .error (.conversionError
            ⟨(prim s 0).lastError, .ConversionFromUtf16ToUtf8, msgUtf8LengthQueryFailed⟩)) ∧
      ((prim s 0).ret ≠ 0 → (prim s (prim s 0).ret).ret = 0 →
        Utf8FromUtf16Gen prim s =
          .error (.conversionError
            ⟨(prim s (prim s 0).ret).lastError, .ConversionFromUtf16ToUtf8,
              msgUtf8ConversionFailed⟩))) ∧
    (∀ (prim : Prim) (s : List Nat), s ≠ [] → s.length ≤ INT_MAX →
      ((prim s 0).ret = 0 →
        Utf16FromUtf8Gen prim s =
          .error (.conversionError
            ⟨(prim s 0).lastError, .ConversionFromUtf8ToUtf16, msgUtf16LengthQueryFailed⟩)) ∧
      ((prim s 0).ret ≠ 0 → (prim s (prim s 0).ret).ret = 0 →
        Utf16FromUtf8Gen prim s =
          .error (.conversionError
            ⟨(prim s (prim s 0).ret).lastError, .ConversionFromUtf8ToUtf16,
              msgUtf16ConversionFailed⟩))) :=
  ⟨fun prim s hs hl =>
    ⟨fun hm => utf8FromUtf16Gen_measureFail prim s hs hl hm,
     fun hm hf => utf8FromUtf16Gen_fillFail prim s hs hl hm hf⟩,
   fun prim s hs hl =>
    ⟨fun hm => utf16FromUtf8Gen_measureFail prim s hs hl hm,
     fun hm hf => utf16FromUtf8Gen_fillFail prim s hs hl hm hf⟩⟩

/-- Witness for C5: a measure-pass failure (last-error 42) in the UTF-16 →
UTF-8 direction and a fill-pass failure (last-error 7) in the UTF-8 → UTF-16
direction, with the direction, code and message the theorem promises. -/
theorem conversionError_on_primitive_failure_witness :
    Utf8FromUtf16Gen primAlwaysFails [65] =
      .error (.conversionError ⟨42, .ConversionFromUtf16ToUtf8, msgUtf8LengthQueryFailed⟩) ∧
    Utf16FromUtf8Gen primFillFails [65] =
      .error (.conversionError ⟨7, .ConversionFromUtf8ToUtf16, msgUtf16ConversionFailed⟩) :=
  ⟨(conversionError_on_primitive_failure.1 primAlwaysFails [65]
      (by decide) (by decide)).1 rfl,
   (conversionError_on_primitive_failure.2 primFillFails [65]
      (by decide) (by decide)).2 (by decide) rfl⟩

/-- Counterexample for C5 as stated: at input [65] with a primitive whose
measure pass fails with last-error 42, the conversion does raise a
`ConversionError` with the right direction and code, but its message is the
source's literal string, not "length query failed". -/
theorem conversionError_message_counterexample :
    (primAlwaysFails [65] 0).ret = 0 ∧
    Utf8FromUtf16Gen primAlwaysFails [65] =
      .error (.conversionError ⟨42, .ConversionFromUtf16ToUtf8, msgUtf8LengthQueryFailed⟩) ∧
    msgUtf8LengthQueryFailed ≠ "length query failed" := by
  refine ⟨rfl, ?_, by decide⟩
  exact utf8FromUtf16Gen_measureFail primAlwaysFails [65] (by decide) (by decide) rfl

/-- C6: there is no partial-success outcome: for every primitive and every
input, each conversion either raises an error or returns a result whose
length is exactly the count reported by the measure pass (the empty input
returns the empty result, with no measure pass performed). -/
theorem noPartialSuccess :
    (∀ (prim : Prim), Utf8FromUtf16Gen prim [] = .ok [] ∧
      Utf16FromUtf8Gen prim [] = .ok []) ∧
    (∀ (prim : Prim) (s : List Nat), s ≠ [] → s.length ≤ INT_MAX →
      (∃ e, Utf8FromUtf16Gen prim s = .error e) ∨
      (∃ out, Utf8FromUtf16Gen prim s = .ok out ∧ out.length = (prim s 0).ret)) ∧
    (∀ (prim : Prim) (s : List Nat), s ≠ [] → s.length ≤ INT_MAX →
      (∃ e, Utf16FromUtf8Gen prim s = .error e) ∨
      (∃ out, Utf16FromUtf8Gen prim s = .ok out ∧ out.length = (prim s 0).ret)) := by
  refine ⟨fun prim => ⟨rfl, rfl⟩, ?_, ?_⟩
  · intro prim s hs hl
    by_cases hm : (prim s 0).ret = 0
    · exact Or.inl ⟨_, utf8FromUtf16Gen_measureFail prim s hs hl hm⟩
    · by_cases hf : (prim s (prim s 0).ret).ret = 0
      · exact Or.inl ⟨_, utf8FromUtf16Gen_fillFail prim s hs hl hm hf⟩
      · refine Or.inr ⟨_, utf8FromUtf16Gen_success prim s hs hl hm hf, ?_⟩
        simp [List.length_take, List.length_append, List.length_replicate]
  · intro prim s hs hl
    by_cases hm : (prim s 0).ret = 0
    · exact Or.inl ⟨_, utf16FromUtf8Gen_measureFail prim s hs hl hm⟩
    · by_cases hf : (prim s (prim s 0).ret).ret = 0
      · exact Or.inl ⟨_, utf16FromUtf8Gen_fillFail prim s hs hl hm hf⟩
      · refine Or.inr ⟨_, utf16FromUtf8Gen_success prim s hs hl hm hf, ?_⟩
        simp [List.length_take, List.length_append, List.length_replicate]

/-- Witness for C6: at the modelled primitive and input "A" both conversions
succeed with the measured length; at a huge input the first disjunct (error)
is realized. -/
theorem noPartialSuccess_witness :
    ((∃ e, Utf8FromUtf16Gen wideCharToMultiByte [65] = .error e) ∨
      (∃ out, Utf8FromUtf16Gen wideCharToMultiByte [65] = .ok out ∧
        out.length = (wideCharToMultiByte [65] 0).ret)) ∧
    ((∃ e, Utf16FromUtf8Gen multiByteToWideChar [65] = .error e) ∨
      (∃ out, Utf16FromUtf8Gen multiByteToWideChar [65] = .ok out ∧
        out.length = (multiByteToWideChar [65] 0).ret)) :=
  ⟨noPartialSuccess.2.1 wideCharToMultiByte [65] (by decide) (by decide),
   noPartialSuccess.2.2 multiByteToWideChar [65] (by decide) (by decide)⟩

/-- C7: the steps of each conversion occur in a fixed order.  The trace of
any execution is one of: nothing (empty input); length cast only (overflow);
length cast then measure pass (measure failure); length cast, measure pass,
allocation, fill pass (fill failure or success) — so the length cast
precedes any primitive call, the measure pass precedes allocation, and
allocation precedes the fill pass.  Moreover a length overflow is raised
with the primitive never having been invoked. -/
theorem conversionSequencing (prim : Prim) (s : List Nat) :
    ((Utf8FromUtf16T prim s).2 = [] ∨
      (Utf8FromUtf16T prim s).2 = [.lengthCast] ∨
      (Utf8FromUtf16T prim s).2 = [.lengthCast, .primMeasure] ∨
      (Utf8FromUtf16T prim s).2 = [.lengthCast, .primMeasure, .alloc, .primFill]) ∧
    (INT_MAX < s.length →
      Utf8FromUtf16T prim s = (.error (.overflowError overflowMessage), [.lengthCast])) ∧
    ((Utf16FromUtf8T prim s).2 = [] ∨
      (Utf16FromUtf8T prim s).2 = [.lengthCast] ∨
      (Utf16FromUtf8T prim s).2 = [.lengthCast, .primMeasure] ∨
      (Utf16FromUtf8T prim s).2 = [.lengthCast, .primMeasure, .alloc, .primFill]) ∧
    (INT_MAX < s.length →
      Utf16FromUtf8T prim s = (.error (.overflowError overflowMessage), [.lengthCast])) := by
  have hs' : INT_MAX < s.length → s ≠ [] := by
    intro h he
    subst he
    simp at h
  refine ⟨?_, ?_, ?_, ?_⟩
  · by_cases hs : s = []
    · subst hs
      exact Or.inl rfl
    by_cases hl : s.length ≤ INT_MAX
    · by_cases hm : (prim s 0).ret = 0
      · refine Or.inr (Or.inr (Or.inl ?_))
        unfold Utf8FromUtf16T
        rw [if_neg hs, safeIntFromSizet_ok hl]
        simp only [List.take_length]
        rw [if_pos hm]
      · refine Or.inr (Or.inr (Or.inr ?_))
        unfold Utf8FromUtf16T
        rw [if_neg hs, safeIntFromSizet_ok hl]
        simp only [List.take_length]
        rw [if_neg hm]
        by_cases hf : (prim s (prim s 0).ret).ret = 0
        · rw [if_pos hf]
        · rw [if_neg hf]
    · refine Or.inr (Or.inl ?_)
      unfold Utf8FromUtf16T
      rw [if_neg hs, safeIntFromSizet_error (by omega)]
  · intro h
    unfold Utf8FromUtf16T
    rw [if_neg (hs' h), safeIntFromSizet_error h]
  · by_cases hs : s = []
    · subst hs
      exact Or.inl rfl
    by_cases hl : s.length ≤ INT_MAX
    · by_cases hm : (prim s 0).ret = 0
      · refine Or.inr (Or.inr (Or.inl ?_))
        unfold Utf16FromUtf8T
        rw [if_neg hs, safeIntFromSizet_ok hl]
        simp only [List.take_length]
        rw [if_pos hm]
      · refine Or.inr (Or.inr (Or.inr ?_))
        unfold Utf16FromUtf8T
        rw [if_neg hs, safeIntFromSizet_ok hl]
        simp only [List.take_length]
        rw [if_neg hm]
        by_cases hf : (prim s (prim s 0).ret).ret = 0
        · rw [if_pos hf]
        · rw [if_neg hf]
    · refine Or.inr (Or.inl ?_)
      unfold Utf16FromUtf8T
      rw [if_neg hs, safeIntFromSizet_error (by omega)]
  · intro h
    unfold Utf16FromUtf8T
    rw [if_neg (hs' h), safeIntFromSizet_error h]

/-- Witness for C7: at an input of 2^31 code units the overflow error is
raised and the trace shows the length cast as the only step performed — the
primitive was never invoked. -/
theorem conversionSequencing_witness :
    Utf8FromUtf16T wideCharToMultiByte hugeValidUtf16 =
      (.error (.overflowError overflowMessage), [.lengthCast]) ∧
    Utf16FromUtf8T multiByteToWideChar hugeValidUtf16 =
      (.error (.overflowError overflowMessage), [.lengthCast]) :=
  ⟨(conversionSequencing wideCharToMultiByte hugeValidUtf16).2.1
    (by simp only [hugeValidUtf16, List.length_replicate, INT_MAX]; norm_num),
   (conversionSequencing multiByteToWideChar hugeValidUtf16).2.2.2
    (by simp only [hugeValidUtf16, List.length_replicate, INT_MAX]; norm_num)⟩

/-- C10: the fill pass's return value is only checked against zero, never
compared with the measured length: whenever both passes return nonzero and
the fill return differs from the measure return, the conversion still
succeeds and the result's length equals the measure-pass count. -/
theorem fillReturnOnlyCheckedAgainstZero :
    (∀ (prim : Prim) (s : List Nat), s ≠ [] → s.length ≤ INT_MAX →
      (prim s 0).ret ≠ 0 → (prim s (prim s 0).ret).ret ≠ 0 →
      (prim s (prim s 0).ret).ret ≠ (prim s 0).ret →
      ∃ out, Utf8FromUtf16Gen prim s = .ok out ∧ out.length = (prim s 0).ret) ∧
    (∀ (prim : Prim) (s : List Nat), s ≠ [] → s.length ≤ INT_MAX →
      (prim s 0).ret ≠ 0 → (prim s (prim s 0).ret).ret ≠ 0 →
      (prim s (prim s 0).ret).ret ≠ (prim s 0).ret →
      ∃ out, Utf16FromUtf8Gen prim s = .ok out ∧ out.length = (prim s 0).ret) := by
  constructor
  · intro prim s hs hl hm hf _
    refine ⟨_, utf8FromUtf16Gen_success prim s hs hl hm hf, ?_⟩
    simp [List.length_take, List.length_append, List.length_replicate]
  · intro prim s hs hl hm hf _
    refine ⟨_, utf16FromUtf8Gen_success prim s hs hl hm hf, ?_⟩
    simp [List.length_take, List.length_append, List.length_replicate]

/-- Witness for C10: a primitive measuring 3 units whose fill pass returns 2
(nonzero, different from 3): both conversions succeed with a length-3
result. -/
theorem fillReturnOnlyCheckedAgainstZero_witness :
    (∃ out, Utf8FromUtf16Gen primMismatch [65] = .ok out ∧
      out.length = (primMismatch [65] 0).ret) ∧
    (∃ out, Utf16FromUtf8Gen primMismatch [65] = .ok out ∧
      out.length = (primMismatch [65] 0).ret) :=
  ⟨fillReturnOnlyCheckedAgainstZero.1 primMismatch [65]
    (by decide) (by decide) (by decide) (by decide) (by decide),
   fillReturnOnlyCheckedAgainstZero.2 primMismatch [65]
    (by decide) (by decide) (by decide) (by decide) (by decide)⟩

/-- C8: the single UTF-16 code unit 0x5B66 converts to exactly the three
UTF-8 bytes 0xE5 0xAD 0xA6, and converting those bytes back yields the
single code unit 0x5B66. -/
theorem knownVector_kanji :
    Utf8FromUtf16 [0x5B66] = .ok [0xE5, 0xAD, 0xA6] ∧
    Utf16FromUtf8 [0xE5, 0xAD, 0xA6] = .ok [0x5B66] :=
  ⟨rfl, rfl⟩

/-- Evaluation of `utf8Decode` on a two-byte form. -/
theorem utf8Decode_two (b0 b1 : Nat) (rest : List Nat)
    (hn : ¬(b0 < 0x80)) (h0 : 0xC0 ≤ b0 ∧ b0 < 0xE0)
    (hc : (0x80 ≤ b1 ∧ b1 < 0xC0) ∧ 0x80 ≤ (b0 - 0xC0) * 64 + (b1 - 0x80)) :
    utf8Decode (b0 :: b1 :: rest) =
      (utf8Decode rest).map (fun cps => ((b0 - 0xC0) * 64 + (b1 - 0x80)) :: cps) := by
  conv_lhs => rw [utf8Decode.eq_def]
  simp only
  rw [if_neg hn, if_pos h0, if_pos hc]

/-- Evaluation of `utf8Decode` on a three-byte form. -/
theorem utf8Decode_three (b0 b1 b2 : Nat) (rest : List Nat)
    (hn : ¬(b0 < 0x80)) (hn2 : ¬(0xC0 ≤ b0 ∧ b0 < 0xE0)) (h0 : 0xE0 ≤ b0 ∧ b0 < 0xF0)
    (hc : (0x80 ≤ b1 ∧ b1 < 0xC0) ∧ (0x80 ≤ b2 ∧ b2 < 0xC0) ∧
      0x800 ≤ (b0 - 0xE0) * 4096 + (b1 - 0x80) * 64 + (b2 - 0x80) ∧
      ¬(0xD800 ≤ (b0 - 0xE0) * 4096 + (b1 - 0x80) * 64 + (b2 - 0x80) ∧
        (b0 - 0xE0) * 4096 + (b1 - 0x80) * 64 + (b2 - 0x80) ≤ 0xDFFF)) :
    utf8Decode (b0 :: b1 :: b2 :: rest) =
      (utf8Decode rest).map
        (fun cps => ((b0 - 0xE0) * 4096 + (b1 - 0x80) * 64 + (b2 - 0x80)) :: cps) := by
  conv_lhs => rw [utf8Decode.eq_def]
  simp only
  rw [if_neg hn, if_neg hn2, if_pos h0, if_pos hc]

/-- Evaluation of `utf8Decode` on a four-byte form. -/
theorem utf8Decode_four (b0 b1 b2 b3 : Nat) (rest : List Nat)
    (hn : ¬(b0 < 0x80)) (hn2 : ¬(0xC0 ≤ b0 ∧ b0 < 0xE0)) (hn3 : ¬(0xE0 ≤ b0 ∧ b0 < 0xF0))
    (h0 : 0xF0 ≤ b0 ∧ b0 < 0xF8)
    (hc : (0x80 ≤ b1 ∧ b1 < 0xC0) ∧ (0x80 ≤ b2 ∧ b2 < 0xC0) ∧ (0x80 ≤ b3 ∧ b3 < 0xC0) ∧
      0x10000 ≤ (b0 - 0xF0) * 262144 + (b1 - 0x80) * 4096 + (b2 - 0x80) * 64 + (b3 - 0x80) ∧
      (b0 - 0xF0) * 262144 + (b1 - 0x80) * 4096 + (b2 - 0x80) * 64 + (b3 - 0x80) ≤ 0x10FFFF) :
    utf8Decode (b0 :: b1 :: b2 :: b3 :: rest) =
      (utf8Decode rest).map
        (fun cps =>
          ((b0 - 0xF0) * 262144 + (b1 - 0x80) * 4096 + (b2 - 0x80) * 64 + (b3 - 0x80)) :: cps) := by
  conv_lhs => rw [utf8Decode.eq_def]
  simp only
  rw [if_neg hn, if_neg hn2, if_neg hn3, if_pos h0, if_pos hc]

/-- Strict UTF-8 decoding undoes the encoding of one Unicode scalar value at
the head of a byte sequence. -/
theorem utf8Decode_encodeChar (c : Nat) (rest : List Nat)
    (hc : c < 0x110000) (hsur : ¬(0xD800 ≤ c ∧ c ≤ 0xDFFF)) :
    utf8Decode (utf8EncodeChar c ++ rest) =
      (utf8Decode rest).map (fun cps => c :: cps) := by
  by_cases h1 : c < 0x80
  · have he : utf8EncodeChar c = [c] := by
      unfold utf8EncodeChar
      rw [if_pos h1]
    rw [he, List.singleton_append]
    rw [utf8Decode.eq_def]
    simp only
    rw [if_pos h1]
  · by_cases h2 : c < 0x800
    · have he : utf8EncodeChar c = [0xC0 + c / 64, 0x80 + c % 64] := by
        unfold utf8EncodeChar
        rw [if_neg h1, if_pos h2]
      rw [he]
      simp only [List.cons_append, List.nil_append]
      rw [utf8Decode_two (0xC0 + c / 64) (0x80 + c % 64) rest
        (by omega) (by omega) (by omega)]
      have hval : (0xC0 + c / 64 - 0xC0) * 64 + (0x80 + c % 64 - 0x80) = c := by omega
      rw [hval]
    · by_cases h3 : c < 0x10000
      · have he : utf8EncodeChar c = [0xE0 + c / 4096, 0x80 + c / 64 % 64, 0x80 + c % 64] := by
          unfold utf8EncodeChar
          rw [if_neg h1, if_neg h2, if_pos h3]
        rw [he]
        simp only [List.cons_append, List.nil_append]
        rw [utf8Decode_three (0xE0 + c / 4096) (0x80 + c / 64 % 64) (0x80 + c % 64) rest
          (by omega) (by omega) (by omega) (by omega)]
        have hval : (0xE0 + c / 4096 - 0xE0) * 4096 + (0x80 + c / 64 % 64 - 0x80) * 64 +
            (0x80 + c % 64 - 0x80) = c := by omega
        rw [hval]
      · have he : utf8EncodeChar c =
            [0xF0 + c / 262144, 0x80 + c / 4096 % 64, 0x80 + c / 64 % 64, 0x80 + c % 64] := by
          unfold utf8EncodeChar
          rw [if_neg h1, if_neg h2, if_neg h3]
        rw [he]
        simp only [List.cons_append, List.nil_append]
        rw [utf8Decode_four (0xF0 + c / 262144) (0x80 + c / 4096 % 64) (0x80 + c / 64 % 64)
          (0x80 + c % 64) rest
          (by omega) (by omega) (by omega) (by omega) (by omega)]
        have hval : (0xF0 + c / 262144 - 0xF0) * 262144 + (0x80 + c / 4096 % 64 - 0x80) * 4096 +
            (0x80 + c / 64 % 64 - 0x80) * 64 + (0x80 + c % 64 - 0x80) = c := by omega
        rw [hval]

/-- Strict UTF-8 decoding undoes the encoding of any sequence of Unicode
scalar values. -/
theorem utf8Decode_encode (cps : List Nat)
    (h : ∀ c ∈ cps, c < 0x110000 ∧ ¬(0xD800 ≤ c ∧ c ≤ 0xDFFF)) :
    utf8Decode (utf8Encode cps) = some cps := by
  induction cps with
  | nil => rfl
  | cons c cs ih =>
    simp only [utf8Encode]
    rw [utf8Decode_encodeChar c (utf8Encode cs) (h c (by simp)).1 (h c (by simp)).2]
    rw [ih (fun x hx => h x (by simp [hx]))]
    rfl

/-- The modelled `WideCharToMultiByte` fails on invalid UTF-16 input. -/
theorem wideCharToMultiByte_invalid (src : List Nat) (cb : Nat)
    (h : utf16Decode src = none) :
    wideCharToMultiByte src cb = ⟨0, [], ERROR_NO_UNICODE_TRANSLATION⟩ := by
  unfold wideCharToMultiByte
  rw [h]

/-- The modelled `WideCharToMultiByte` measure pass reports the UTF-8 length
of valid input. -/
theorem wideCharToMultiByte_measure (src : List Nat) (cps : List Nat)
    (h : utf16Decode src = some cps) :
    wideCharToMultiByte src 0 = ⟨(utf8Encode cps).length, [], 0⟩ := by
  unfold wideCharToMultiByte
  rw [h]
  rfl

/-- The modelled `WideCharToMultiByte` fill pass writes the UTF-8 encoding of
valid input into an exactly-sized buffer. -/
theorem wideCharToMultiByte_fill (src : List Nat) (cps : List Nat)
    (h : utf16Decode src = some cps) (hne : (utf8Encode cps).length ≠ 0) :
    wideCharToMultiByte src (utf8Encode cps).length =
      ⟨(utf8Encode cps).length, utf8Encode cps, 0⟩ := by
  unfold wideCharToMultiByte
  rw [h]
  simp only
  rw [if_neg hne, if_pos (le_refl _)]

/-- The modelled `MultiByteToWideChar` fails on invalid UTF-8 input. -/
theorem multiByteToWideChar_invalid (src : List Nat) (cch : Nat)
    (h : utf8Decode src = none) :
    multiByteToWideChar src cch = ⟨0, [], ERROR_NO_UNICODE_TRANSLATION⟩ := by
  unfold multiByteToWideChar
  rw [h]

/-- The modelled `MultiByteToWideChar` measure pass reports the UTF-16 length
of valid input. -/
theorem multiByteToWideChar_measure (src : List Nat) (cps : List Nat)
    (h : utf8Decode src = some cps) :
    multiByteToWideChar src 0 = ⟨(utf16Encode cps).length, [], 0⟩ := by
  unfold multiByteToWideChar
  rw [h]
  rfl

/-- The modelled `MultiByteToWideChar` fill pass writes the UTF-16 encoding
of valid input into an exactly-sized buffer. -/
theorem multiByteToWideChar_fill (src : List Nat) (cps : List Nat)
    (h : utf8Decode src = some cps) (hne : (utf16Encode cps).length ≠ 0) :
    multiByteToWideChar src (utf16Encode cps).length =
      ⟨(utf16Encode cps).length, utf16Encode cps, 0⟩ := by
  unfold multiByteToWideChar
  rw [h]
  simp only
  rw [if_neg hne, if_pos (le_refl _)]

/-- C2: both conversions run the transcoding primitive in strict-validation
mode: a UTF-16 input containing an unpaired surrogate code unit makes
`Utf8FromUtf16` fail with an error, and a UTF-8 input that is not valid
UTF-8 (an invalid continuation byte, a truncated or overlong sequence, ...)
makes `Utf16FromUtf8` fail — neither ever returns replacement-character
output. -/
theorem strictValidation_rejects_invalid :
    (∀ s : List Nat, hasUnpairedSurrogate s = true → ∃ e, Utf8FromUtf16 s = .error e) ∧
    (∀ u : List Nat, utf8Decode u = none → ∃ e, Utf16FromUtf8 u = .error e) := by
  constructor
  · intro s hval
    have hs : s ≠ [] := by
      intro he
      subst he
      simp [hasUnpairedSurrogate] at hval
    by_cases hl : s.length ≤ INT_MAX
    · have hdec : utf16Decode s = none := (utf16Decode_none_iff s).mpr hval
      have hm : (wideCharToMultiByte s 0).ret = 0 := by
        rw [wideCharToMultiByte_invalid s 0 hdec]
      exact ⟨_, utf8FromUtf16Gen_measureFail wideCharToMultiByte s hs hl hm⟩
    · exact ⟨_, utf8FromUtf16Gen_overflow wideCharToMultiByte s hs (by omega)⟩
  · intro u hdec
    have hu : u ≠ [] := by
      intro he
      subst he
      simp [utf8Decode] at hdec
    by_cases hl : u.length ≤ INT_MAX
    · have hm : (multiByteToWideChar u 0).ret = 0 := by
        rw [multiByteToWideChar_invalid u 0 hdec]
      exact ⟨_, utf16FromUtf8Gen_measureFail multiByteToWideChar u hu hl hm⟩
    · exact ⟨_, utf16FromUtf8Gen_overflow multiByteToWideChar u hu (by omega)⟩

/-- Witness for C2: a lone high surrogate 0xD800 makes `Utf8FromUtf16` fail,
and the byte sequence 0xE5 0x41 0x41 (three-byte lead with an invalid
continuation byte) makes `Utf16FromUtf8` fail. -/
theorem strictValidation_rejects_invalid_witness :
    (∃ e, Utf8FromUtf16 [0xD800] = .error e) ∧
    (∃ e, Utf16FromUtf8 [0xE5, 0x41, 0x41] = .error e) :=
  ⟨strictValidation_rejects_invalid.1 [0xD800] (by decide),
   strictValidation_rejects_invalid.2 [0xE5, 0x41, 0x41] (by decide)⟩

/-- A sequence repeating a non-surrogate code unit contains no unpaired
surrogate. -/
theorem hasUnpairedSurrogate_replicate (n x : Nat) (h : ¬(0xD800 ≤ x ∧ x ≤ 0xDFFF)) :
    hasUnpairedSurrogate (List.replicate n x) = false := by
  induction n with
  | zero => rfl
  | succ k ih =>
    rw [List.replicate_succ]
    rw [hasUnpairedSurrogate.eq_def]
    simp only
    rw [if_neg (by omega), if_neg (by omega)]
    exact ih

/-- Counterexample to C1 as stated: a UTF-16 sequence of 2^31 ASCII code
units contains no unpaired surrogate, yet `Utf8FromUtf16` raises the length
overflow error on it (its length does not fit in `int`), so the round trip
is not the identity there. -/
theorem roundTrip_counterexample :
    hasUnpairedSurrogate hugeValidUtf16 = false ∧
    Utf8FromUtf16 hugeValidUtf16 = .error (.overflowError overflowMessage) := by
  constructor
  · exact hasUnpairedSurrogate_replicate (2 ^ 31) 65 (by omega)
  · refine utf8FromUtf16Gen_overflow wideCharToMultiByte hugeValidUtf16 ?_ ?_
    · intro h
      have hlen := congrArg List.length h
      simp only [hugeValidUtf16, List.length_replicate, List.length_nil] at hlen
      norm_num at hlen
    · simp only [hugeValidUtf16, List.length_replicate, INT_MAX]
      norm_num

/-- C1 (amended): for every UTF-16 sequence of 16-bit code units with no
unpaired surrogate whose length n satisfies 3n ≤ INT_MAX (so both the
UTF-16 length and the worst-case UTF-8 length fit in `int`), converting to
UTF-8 and back is the identity. -/
theorem roundTrip_utf16_valid (s : List Nat) (h16 : ∀ u ∈ s, u < 65536)
    (hval : hasUnpairedSurrogate s = false) (hlen : 3 * s.length ≤ INT_MAX) :
    ∃ u8, Utf8FromUtf16 s = .ok u8 ∧ Utf16FromUtf8 u8 = .ok s := by
  by_cases hs : s = []
  · subst hs
    exact ⟨[], rfl, rfl⟩
  obtain ⟨cps, hdec⟩ : ∃ cps, utf16Decode s = some cps := by
    cases hd : utf16Decode s with
    | none =>
      have h' := (utf16Decode_none_iff s).mp hd
      rw [hval] at h'
      exact absurd h' (by simp)
    | some cps => exact ⟨cps, rfl⟩
  have hcpsne : cps ≠ [] := by
    cases s with
    | nil => exact absurd rfl hs
    | cons a l => exact utf16Decode_cons_ne_nil a l cps hdec
  have hbne : utf8Encode cps ≠ [] := utf8Encode_ne_nil cps hcpsne
  have hblen : (utf8Encode cps).length ≠ 0 := fun h0 => hbne (List.length_eq_zero.mp h0)
  have hsl : s.length ≤ INT_MAX := by omega
  have hble : (utf8Encode cps).length ≤ 3 * s.length := utf8Encode_length_le s cps hdec h16
  have hm8 : (wideCharToMultiByte s 0).ret = (utf8Encode cps).length := by
    rw [wideCharToMultiByte_measure s cps hdec]
  have hf8r : (wideCharToMultiByte s ((wideCharToMultiByte s 0).ret)).ret =
      (utf8Encode cps).length := by
    rw [hm8, wideCharToMultiByte_fill s cps hdec hblen]
  have hf8w : (wideCharToMultiByte s ((wideCharToMultiByte s 0).ret)).written =
      utf8Encode cps := by
    rw [hm8, wideCharToMultiByte_fill s cps hdec hblen]
  have h1 : Utf8FromUtf16 s = .ok (utf8Encode cps) := by
    show Utf8FromUtf16Gen wideCharToMultiByte s = .ok (utf8Encode cps)
    rw [utf8FromUtf16Gen_success wideCharToMultiByte s hs hsl
      (by rw [hm8]; exact hblen) (by rw [hf8r]; exact hblen)]
    rw [hf8w, hm8]
    exact congrArg Except.ok (List.take_left _ _)
  have hdec8 : utf8Decode (utf8Encode cps) = some cps :=
    utf8Decode_encode cps (utf16Decode_valid s cps hdec h16)
  have henc : utf16Encode cps = s := utf16Encode_decode s cps hdec h16
  have hslne : s.length ≠ 0 := fun h0 => hs (List.length_eq_zero.mp h0)
  have hm16 : (multiByteToWideChar (utf8Encode cps) 0).ret = s.length := by
    rw [multiByteToWideChar_measure (utf8Encode cps) cps hdec8, henc]
  have hf16 : multiByteToWideChar (utf8Encode cps) s.length = ⟨s.length, s, 0⟩ := by
    have hfill := multiByteToWideChar_fill (utf8Encode cps) cps hdec8
      (by rw [henc]; exact hslne)
    rw [henc] at hfill
    exact hfill
  have hf16r : (multiByteToWideChar (utf8Encode cps)
      ((multiByteToWideChar (utf8Encode cps) 0).ret)).ret = s.length := by
    rw [hm16, hf16]
  have hf16w : (multiByteToWideChar (utf8Encode cps)
      ((multiByteToWideChar (utf8Encode cps) 0).ret)).written = s := by
    rw [hm16, hf16]
  have h2 : Utf16FromUtf8 (utf8Encode cps) = .ok s := by
    show Utf16FromUtf8Gen multiByteToWideChar (utf8Encode cps) = .ok s
    rw [utf16FromUtf8Gen_success multiByteToWideChar (utf8Encode cps) hbne (by omega)
      (by rw [hm16]; exact hslne) (by rw [hf16r]; exact hslne)]
    rw [hf16w, hm16]
    exact congrArg Except.ok (List.take_left _ _)
  exact ⟨utf8Encode cps, h1, h2⟩

/-- Witness for C1: the two-unit ASCII sequence "Hi" round-trips. -/
theorem roundTrip_utf16_valid_witness :
    ∃ u8, Utf8FromUtf16 [72, 105] = .ok u8 ∧ Utf16FromUtf8 u8 = .ok [72, 105] :=
  roundTrip_utf16_valid [72, 105] (by simp) (by decide) (by norm_num [INT_MAX])

end UnicodeConvStd
